import Mathlib

/-!
Shallow embedding of `PrasadMatrixToGraphToHTML.py`:
`plot_3d_multilayer_graph_with_synced_colors(array3d, filename)` renders a
multiplex graph (a list of square integer adjacency matrices) as a list of
plotly traces plus per-layer HTML matrix tables, and combines both into one
HTML document.

External delegates are passed as function parameters:
  * `cm`  models `matplotlib.cm.get_cmap('tab10', num_layers)` — a map from a
    layer index to an RGBA float quadruple;
  * `pos` models `nx.spring_layout(nx.complete_graph(n), dim=2, seed=42)` — a
    map from a node index to a 2D position;
  * `to_html` models `go.Figure(...).to_html(...)` — serialization of the
    trace list to an HTML fragment.
Machine floats are modelled as rationals.  Python runtime failures of the
script (list index out of range, `min()`/`max()` of an empty sequence) are
modelled with `Except String`.
-/

/-- An RGBA colour as returned by a matplotlib colormap: four floats. -/
structure Rgba where
  r : ℚ
  g : ℚ
  b : ℚ
  a : ℚ
deriving DecidableEq, Repr

/-- Python `int(q)`: truncation toward zero. -/
def pyInt (q : ℚ) : ℤ :=
  if q < 0 then -(Int.floor (-q)) else Int.floor q

/-- A single-quote character, used inside the generated HTML attribute syntax. -/
def apos : String := "\x27"

/-- Line 103 of the source: `f"rgb({int(rgba[0]*255)}, {int(rgba[1]*255)}, {int(rgba[2]*255)})"`. -/
def rgb_css (c : Rgba) : String :=
  "rgb(" ++ toString (pyInt (c.r * 255)) ++ ", " ++ toString (pyInt (c.g * 255))
    ++ ", " ++ toString (pyInt (c.b * 255)) ++ ")"

/-- A plotly colour value: either a named CSS colour string or a raw RGBA quadruple
(the script passes the matplotlib quadruple straight through at line 53). -/
inductive PlotColor where
  | named (s : String)
  | rgba (c : Rgba)
deriving DecidableEq, Repr

/-- The `marker=dict(size=..., color=...)` argument of `go.Scatter3d`. -/
structure MarkerStyle where
  size : Nat
  color : String
deriving DecidableEq, Repr

/-- The `line=dict(color=..., width=..., dash=...)` argument of `go.Scatter3d`. -/
structure LineStyle where
  color : PlotColor
  width : Nat
  dash : Option String
deriving DecidableEq, Repr

/-- A plotly trace as constructed by the script: `go.Scatter3d` or `go.Mesh3d`. -/
inductive Trace where
  | scatter3d (x y z : List ℚ) (mode : String) (marker : Option MarkerStyle)
      (text : Option (List String)) (textposition : Option String)
      (line : Option LineStyle) (name : String)
  | mesh3d (x y z : List ℚ) (opacity : ℚ) (color : String) (showscale : Bool)
      (name : String)
deriving DecidableEq, Repr

/-- The x coordinate list of a trace. -/
def Trace.xs : Trace → List ℚ
  | .scatter3d x _ _ _ _ _ _ _ _ => x
  | .mesh3d x _ _ _ _ _ _ => x

/-- The y coordinate list of a trace. -/
def Trace.ys : Trace → List ℚ
  | .scatter3d _ y _ _ _ _ _ _ _ => y
  | .mesh3d _ y _ _ _ _ _ => y

/-- The z coordinate list of a trace. -/
def Trace.zs : Trace → List ℚ
  | .scatter3d _ _ z _ _ _ _ _ _ => z
  | .mesh3d _ _ z _ _ _ _ => z

/-- The line style of a trace, when present. -/
def Trace.lineOf : Trace → Option LineStyle
  | .scatter3d _ _ _ _ _ _ _ line _ => line
  | .mesh3d _ _ _ _ _ _ _ => none

/-- The marker style of a trace, when present. -/
def Trace.markerOf : Trace → Option MarkerStyle
  | .scatter3d _ _ _ _ marker _ _ _ _ => marker
  | .mesh3d _ _ _ _ _ _ _ => none

/-- The text label list of a trace, when present. -/
def Trace.textOf : Trace → Option (List String)
  | .scatter3d _ _ _ _ _ text _ _ _ => text
  | .mesh3d _ _ _ _ _ _ _ => none

/-- A node-marker trace: a `Scatter3d` in `markers+text` mode. -/
def Trace.isNodeMarker : Trace → Bool
  | .scatter3d _ _ _ mode (some _) _ _ _ _ => mode == "markers+text"
  | _ => false

/-- An intra-layer edge trace: a `Scatter3d` in `lines` mode with a solid line. -/
def Trace.isIntraEdge : Trace → Bool
  | .scatter3d _ _ _ mode _ _ _ (some style) _ => mode == "lines" && style.dash == none
  | _ => false

/-- An inter-layer link trace: a `Scatter3d` in `lines` mode with a dashed line. -/
def Trace.isInterEdge : Trace → Bool
  | .scatter3d _ _ _ mode _ _ _ (some style) _ => mode == "lines" && style.dash.isSome
  | _ => false

/-- A bounding-plane trace: a `Mesh3d`. -/
def Trace.isPlane : Trace → Bool
  | .mesh3d _ _ _ _ _ _ _ => true
  | _ => false

/-- Line 26 of the source: `z_offset = layer_index * 2.0`. -/
def layerZ (L : Nat) : ℚ := (L : ℚ) * 2

/-- Line 27: `x_nodes = [base_pos[k][0] for k in range(n)]`. -/
def x_nodes (pos : Nat → ℚ × ℚ) (n : Nat) : List ℚ :=
  (List.range n).map (fun k => (pos k).1)

/-- Line 28: `y_nodes = [base_pos[k][1] for k in range(n)]`. -/
def y_nodes (pos : Nat → ℚ × ℚ) (n : Nat) : List ℚ :=
  (List.range n).map (fun k => (pos k).2)

/-- Lines 32–39: the per-layer node trace. -/
def node_trace (pos : Nat → ℚ × ℚ) (n L : Nat) : Trace :=
  .scatter3d (x_nodes pos n) (y_nodes pos n)
    ((List.range n).map (fun _ => layerZ L))
    "markers+text" (some ⟨10, "lightblue"⟩)
    (some ((List.range n).map (fun k => toString k ++ " (L" ++ toString (L + 1) ++ ")")))
    (some "top center") none ("Layer " ++ toString (L + 1) ++ " Nodes")

/-- Lines 47–55: the trace emitted for a non-zero entry `(i, j)` of layer `L`. -/
def edge_trace (cm : Nat → Rgba) (pos : Nat → ℚ × ℚ) (L i j : Nat) : Trace :=
  .scatter3d [(pos i).1, (pos j).1] [(pos i).2, (pos j).2] [layerZ L, layerZ L]
    "lines" none none none (some ⟨.rgba (cm L), 4, none⟩)
    ("Layer " ++ toString (L + 1) ++ " Edge")

/-- The body of the edge double loop (lines 44–56) for a single index pair:
`matrix[i][j]` is read (raising `IndexError` when out of range) and an edge
trace is emitted when the entry is non-zero. -/
def intra_edge_at (cm : Nat → Rgba) (pos : Nat → ℚ × ℚ) (L : Nat)
    (matrix : List (List Int)) (i j : Nat) : Except String (List Trace) :=
  match matrix.get? i with
  | none => .error "IndexError: list index out of range"
  | some row =>
    match row.get? j with
    | none => .error "IndexError: list index out of range"
    | some v => if v ≠ 0 then .ok [edge_trace cm pos L i j] else .ok []

/-- Runs `f 0`, …, `f (n-1)` in order, concatenating the emitted traces and
propagating the first failure — the shape of the script's `for` loops. -/
def collectRange {α : Type} (f : Nat → Except String (List α)) : Nat → Except String (List α)
  | 0 => .ok []
  | n + 1 =>
    match collectRange f n with
    | .error e => .error e
    | .ok xs =>
      match f n with
      | .error e => .error e
      | .ok ys => .ok (xs ++ ys)

/-- Python `min(l)` over a list: fails on an empty sequence. -/
def pyMin (l : List ℚ) : Except String ℚ :=
  match l with
  | [] => .error "ValueError: min() arg is an empty sequence"
  | x :: xs => .ok (xs.foldl min x)

/-- Python `max(l)` over a list: fails on an empty sequence. -/
def pyMax (l : List ℚ) : Except String ℚ :=
  match l with
  | [] => .error "ValueError: max() arg is an empty sequence"
  | x :: xs => .ok (xs.foldl max x)

/-- Lines 59–67: the translucent bounding plane of layer `L`; evaluating
`min(x_nodes)` etc. fails when the node list is empty. -/
def plane_traceE (pos : Nat → ℚ × ℚ) (n L : Nat) : Except String Trace :=
  match pyMin (x_nodes pos n), pyMax (x_nodes pos n),
        pyMin (y_nodes pos n), pyMax (y_nodes pos n) with
  | .ok xmin, .ok xmax, .ok ymin, .ok ymax =>
      .ok (.mesh3d [xmin, xmax, xmax, xmin] [ymin, ymin, ymax, ymax]
        [layerZ L, layerZ L, layerZ L, layerZ L] (0.15 : ℚ) "lightgray" false
        ("Layer " ++ toString (L + 1) ++ " Plane"))
  | .error e, _, _, _ => .error e
  | _, .error e, _, _ => .error e
  | _, _, .error e, _ => .error e
  | _, _, _, .error e => .error e

/-- Lines 25–68: the traces of one iteration of the layer loop — node markers,
then one edge trace per non-zero entry scanned in row-major order, then the
bounding plane. -/
def layer_tracesE (cm : Nat → Rgba) (pos : Nat → ℚ × ℚ)
    (a3 : List (List (List Int))) (n L : Nat) : Except String (List Trace) :=
  match collectRange (fun i => collectRange (fun j => intra_edge_at cm pos L (a3.getD L []) i j) n) n with
  | .error e => .error e
  | .ok edges =>
    match plane_traceE pos n L with
    | .error e => .error e
    | .ok plane => .ok ([node_trace pos n L] ++ edges ++ [plane])

/-- Lines 76–81: the vertical dotted link of one node between layers `L` and `L+1`. -/
def inter_edge (pos : Nat → ℚ × ℚ) (node L : Nat) : Trace :=
  .scatter3d [(pos node).1, (pos node).1] [(pos node).2, (pos node).2]
    [layerZ L, layerZ (L + 1)] "lines" none none none
    (some ⟨.named "gray", 2, some "dot"⟩)
    ("Inter-layer Node " ++ toString node)

/-- Lines 71–82: the inter-layer link loop, one link per node per adjacent layer pair. -/
def inter_edges (pos : Nat → ℚ × ℚ) (n num_layers : Nat) : List Trace :=
  (List.range n).flatMap (fun node =>
    (List.range (num_layers - 1)).map (fun L => inter_edge pos node L))

/-- One rendered matrix-table cell: the entry value and the computed background. -/
structure Cell where
  value : Int
  background : String
deriving DecidableEq, Repr

/-- Lines 110–113: a cell's background is white for a zero entry, the layer colour otherwise. -/
def table_cell (layer_color : String) (v : Int) : Cell :=
  ⟨v, if v = 0 then "white" else layer_color⟩

/-- The structured content of one layer's matrix table. -/
structure LayerTable where
  layer : Nat
  headingColor : String
  cells : List (List Cell)
deriving DecidableEq, Repr

/-- Lines 100–116, structured: one table per layer, one cell per entry in matrix order. -/
def layer_table (cm : Nat → Rgba) (L : Nat) (matrix : List (List Int)) : LayerTable :=
  ⟨L, rgb_css (cm L), matrix.map (fun row => row.map (fun v => table_cell (rgb_css (cm L)) v))⟩

/-- The structured tables of all layers, in `enumerate(array3d)` order. -/
def matrix_tables (cm : Nat → Rgba) (a3 : List (List (List Int))) : List LayerTable :=
  a3.enum.map (fun p => layer_table cm p.1 p.2)

/-- Line 114: the `<td>` fragment for one cell. -/
def td_str (cell_color : String) (v : Int) : String :=
  "<td style=" ++ apos ++ "background-color:" ++ cell_color
    ++ "; padding:5px; text-align:center;" ++ apos ++ ">" ++ toString v ++ "</td>"

/-- Line 105: the `<h3>` heading fragment for one layer. -/
def h3_str (layer_color : String) (L : Nat) : String :=
  "<h3 style=" ++ apos ++ "color:" ++ layer_color ++ ";" ++ apos ++ ">Layer "
    ++ toString (L + 1) ++ "</h3>"

/-- Line 106: the `<table>` opening tag. -/
def table_open : String :=
  "<table border=" ++ apos ++ "1" ++ apos ++ " style=" ++ apos ++ "border-collapse:collapse;" ++ apos ++ ">"

/-- Lines 108–115: the inner row loop, accumulating `<td>` fragments onto `acc`. -/
def row_str_fold (layer_color : String) (acc : String) (row : List Int) : String :=
  (row.foldl (fun a v => a ++ td_str (if v = 0 then "white" else layer_color) v)
    (acc ++ "<tr>")) ++ "</tr>"

/-- Lines 100–116: the body of the table loop for one `(layer_index, matrix)` pair. -/
def layer_str_fold (cm : Nat → Rgba) (acc : String) (p : Nat × List (List Int)) : String :=
  (p.2.foldl (row_str_fold (rgb_css (cm p.1)))
    (acc ++ h3_str (rgb_css (cm p.1)) p.1 ++ table_open)) ++ "</table><br>"

/-- Lines 99–116: `html_table`, built by string accumulation over `enumerate(array3d)`. -/
def html_table_str (cm : Nat → Rgba) (a3 : List (List (List Int))) : String :=
  a3.enum.foldl (layer_str_fold cm) "<h2>Matrix Values (Layer Colors)</h2>"

/-- Lines 119–132: the final document, combining the serialized figure and the tables. -/
def document_of (html_graph html_table : String) : String :=
  "\n    <!DOCTYPE html>\n    <html>\n    <head>\n      <title>Multiplex Graph with Matrix</title>\n      <script src=\"https://cdn.plot.ly/plotly-latest.min.js\"></script>\n    </head>\n    <body>\n      <h1>Multiplex Graph Visualization</h1>\n      "
    ++ html_graph ++ "\n      " ++ html_table ++ "\n    </body>\n    </html>\n    "

/-- Everything the script produces before the file write. -/
structure RunOutput where
  traces : List Trace
  html_graph : String
  html_table : String
  document : String
deriving DecidableEq, Repr

/-- Lines 5–132: the whole pipeline.  `n = len(array3d[0])` raises `IndexError`
on an empty input; otherwise the layer loop, the inter-layer loop, figure
serialization (`to_html`) and table building run in order. -/
def plot_3d_multilayer_graph_with_synced_colors (cm : Nat → Rgba) (pos : Nat → ℚ × ℚ)
    (to_html : List Trace → String) (array3d : List (List (List Int))) :
    Except String RunOutput :=
  match array3d with
  | [] => .error "IndexError: list index out of range"
  | first :: rest =>
    let n := first.length
    let num_layers := (first :: rest).length
    match collectRange (fun L => layer_tracesE cm pos (first :: rest) n L) num_layers with
    | .error e => .error e
    | .ok graph =>
      let traces := graph ++ inter_edges pos n num_layers
      let html_graph := to_html traces
      let html_table := html_table_str cm (first :: rest)
      .ok { traces := traces, html_graph := html_graph, html_table := html_table,
            document := document_of html_graph html_table }

/-- A well-formed multiplex graph: at least one layer, a positive node count,
and every layer an `n × n` matrix for `n = len(array3d[0])`. -/
def WellFormed (a3 : List (List (List Int))) : Prop :=
  a3 ≠ [] ∧ 0 < (a3.headD []).length ∧
    ∀ m ∈ a3, m.length = (a3.headD []).length ∧
      ∀ row ∈ m, row.length = (a3.headD []).length

instance (a3 : List (List (List Int))) : Decidable (WellFormed a3) := by
  unfold WellFormed; infer_instance

/-- The example input `A` from lines 141–157 of the source. -/
def A : List (List (List Int)) :=
  [[[0, 1, 0], [0, 0, 2], [3, 0, 0]],
   [[0, 4, 0], [5, 0, 0], [0, 0, 6]],
   [[0, 0, 7], [0, 0, 8], [9, 0, 0]]]

/-- A concrete stand-in for the colormap delegate, used in witnesses. -/
def cm0 : Nat → Rgba := fun L => ⟨(L : ℚ) / 10, 1 / 2, 1, 1⟩

/-- A concrete stand-in for the layout delegate, used in witnesses. -/
def pos0 : Nat → ℚ × ℚ := fun k => ((k : ℚ), (k : ℚ) * 2)

/-- A concrete stand-in for the figure serializer, used in witnesses. -/
def to_html0 : List Trace → String := fun _ => "GRAPH"

/-! ## Success-path denotations of the loops -/

/-- The edge traces of layer `L` on the success path: one per non-zero entry,
scanned in row-major order over `range n × range n`. -/
def edge_list (cm : Nat → Rgba) (pos : Nat → ℚ × ℚ) (L : Nat)
    (matrix : List (List Int)) (n : Nat) : List Trace :=
  (List.range n).flatMap (fun i => (List.range n).flatMap (fun j =>
    if (matrix.getD i []).getD j 0 ≠ 0 then [edge_trace cm pos L i j] else []))

/-- `min` of a list, with a junk value on `[]` (only used for non-empty lists). -/
def list_min : List ℚ → ℚ
  | [] => 0
  | x :: xs => xs.foldl min x

/-- `max` of a list, with a junk value on `[]` (only used for non-empty lists). -/
def list_max : List ℚ → ℚ
  | [] => 0
  | x :: xs => xs.foldl max x

/-- The bounding plane of layer `L` on the success path. -/
def plane_trace (pos : Nat → ℚ × ℚ) (n L : Nat) : Trace :=
  .mesh3d
    [list_min (x_nodes pos n), list_max (x_nodes pos n),
     list_max (x_nodes pos n), list_min (x_nodes pos n)]
    [list_min (y_nodes pos n), list_min (y_nodes pos n),
     list_max (y_nodes pos n), list_max (y_nodes pos n)]
    [layerZ L, layerZ L, layerZ L, layerZ L] (0.15 : ℚ) "lightgray" false
    ("Layer " ++ toString (L + 1) ++ " Plane")

/-- The traces of one layer-loop iteration on the success path. -/
def layer_traces (cm : Nat → Rgba) (pos : Nat → ℚ × ℚ)
    (a3 : List (List (List Int))) (n L : Nat) : List Trace :=
  [node_trace pos n L] ++ edge_list cm pos L (a3.getD L []) n ++ [plane_trace pos n L]

/-- The whole trace list on the success path: all layer loops, then the
inter-layer links. -/
def all_traces (cm : Nat → Rgba) (pos : Nat → ℚ × ℚ)
    (a3 : List (List (List Int))) (n : Nat) : List Trace :=
  (List.range a3.length).flatMap (fun L => layer_traces cm pos a3 n L)
    ++ inter_edges pos n a3.length

/-! ## The success path of the pipeline -/

lemma get?_of_lt {α : Type} (l : List α) (i : Nat) (h : i < l.length) :
    l.get? i = some (l.get ⟨i, h⟩) := List.get?_eq_get h

lemma getD_of_lt {α : Type} (l : List α) (i : Nat) (d : α) (h : i < l.length) :
    l.getD i d = l.get ⟨i, h⟩ := by
  rw [List.getD_eq_get?, get?_of_lt l i h]; rfl

lemma collectRange_ok {α : Type} (f : Nat → Except String (List α)) (g : Nat → List α) :
    ∀ n, (∀ k, k < n → f k = .ok (g k)) →
      collectRange f n = .ok ((List.range n).flatMap g) := by
  intro n
  induction n with
  | zero => intro _; simp [collectRange]
  | succ m ih =>
    intro h
    have hm : collectRange f m = .ok ((List.range m).flatMap g) :=
      ih (fun k hk => h k (Nat.lt_succ_of_lt hk))
    have hfm : f m = .ok (g m) := h m (Nat.lt_succ_self m)
    simp [collectRange, hm, hfm, List.range_succ]

lemma intra_edge_at_ok (cm : Nat → Rgba) (pos : Nat → ℚ × ℚ) (L : Nat)
    (matrix : List (List Int)) (n i j : Nat)
    (hlen : matrix.length = n) (hrows : ∀ row ∈ matrix, row.length = n)
    (hi : i < n) (hj : j < n) :
    intra_edge_at cm pos L matrix i j =
      .ok (if (matrix.getD i []).getD j 0 ≠ 0 then [edge_trace cm pos L i j] else []) := by
  have hi' : i < matrix.length := hlen ▸ hi
  have hrow := get?_of_lt matrix i hi'
  have hmem : matrix.get ⟨i, hi'⟩ ∈ matrix := List.get_mem matrix i hi'
  have hj' : j < (matrix.get ⟨i, hi'⟩).length := (hrows _ hmem) ▸ hj
  have hval := get?_of_lt (matrix.get ⟨i, hi'⟩) j hj'
  have hDv : (matrix.getD i []).getD j 0 = (matrix.get ⟨i, hi'⟩).get ⟨j, hj'⟩ := by
    rw [getD_of_lt matrix i [] hi', getD_of_lt _ j 0 hj']
  simp only [intra_edge_at, hrow, hval, hDv]
  split <;> rfl

lemma edge_loop_ok (cm : Nat → Rgba) (pos : Nat → ℚ × ℚ) (L : Nat)
    (matrix : List (List Int)) (n : Nat)
    (hlen : matrix.length = n) (hrows : ∀ row ∈ matrix, row.length = n) :
    collectRange (fun i => collectRange (fun j => intra_edge_at cm pos L matrix i j) n) n =
      .ok (edge_list cm pos L matrix n) := by
  rw [edge_list]
  apply collectRange_ok
  intro i hi
  apply collectRange_ok
  intro j hj
  exact intra_edge_at_ok cm pos L matrix n i j hlen hrows hi hj

lemma plane_traceE_ok (pos : Nat → ℚ × ℚ) (n L : Nat) (hn : 0 < n) :
    plane_traceE pos n L = .ok (plane_trace pos n L) := by
  have hx : x_nodes pos n ≠ [] := by
    have : (x_nodes pos n).length = n := by simp [x_nodes]
    intro hnil; rw [hnil] at this; simp at this; omega
  have hy : y_nodes pos n ≠ [] := by
    have : (y_nodes pos n).length = n := by simp [y_nodes]
    intro hnil; rw [hnil] at this; simp at this; omega
  rcases hx' : x_nodes pos n with _ | ⟨a, as⟩
  · exact absurd hx' hx
  rcases hy' : y_nodes pos n with _ | ⟨b, bs⟩
  · exact absurd hy' hy
  rw [plane_traceE, plane_trace, hx', hy']
  simp [pyMin, pyMax, list_min, list_max]

lemma layer_tracesE_ok (cm : Nat → Rgba) (pos : Nat → ℚ × ℚ)
    (a3 : List (List (List Int))) (L : Nat)
    (hwf : WellFormed a3) (hL : L < a3.length) :
    layer_tracesE cm pos a3 (a3.headD []).length L =
      .ok (layer_traces cm pos a3 (a3.headD []).length L) := by
  obtain ⟨hne, hn, hall⟩ := hwf
  have hmemL : a3.getD L [] ∈ a3 := by
    rw [getD_of_lt a3 L [] hL]
    exact List.get_mem a3 L hL
  obtain ⟨hmlen, hmrows⟩ := hall _ hmemL
  rw [layer_tracesE, edge_loop_ok cm pos L _ _ hmlen hmrows,
    plane_traceE_ok pos _ L hn, layer_traces]

/-- On a well-formed input the pipeline succeeds and produces exactly the
success-path traces, tables and document. -/
theorem pipeline_ok (cm : Nat → Rgba) (pos : Nat → ℚ × ℚ)
    (to_html : List Trace → String) (a3 : List (List (List Int)))
    (hwf : WellFormed a3) :
    plot_3d_multilayer_graph_with_synced_colors cm pos to_html a3 =
      .ok { traces := all_traces cm pos a3 (a3.headD []).length,
            html_graph := to_html (all_traces cm pos a3 (a3.headD []).length),
            html_table := html_table_str cm a3,
            document := document_of
              (to_html (all_traces cm pos a3 (a3.headD []).length))
              (html_table_str cm a3) } := by
  rcases ha : a3 with _ | ⟨first, rest⟩
  · exact absurd ha hwf.1
  subst ha
  have hloop : collectRange (fun L => layer_tracesE cm pos (first :: rest) first.length L)
      (first :: rest).length =
      .ok ((List.range (first :: rest).length).flatMap
        (fun L => layer_traces cm pos (first :: rest) first.length L)) := by
    apply collectRange_ok
    intro L hL
    exact layer_tracesE_ok cm pos (first :: rest) L hwf hL
  rw [plot_3d_multilayer_graph_with_synced_colors]
  simp only [hloop, all_traces]
  rfl

/-! ## Trace classification -/

@[simp] lemma isIntraEdge_edge_trace (cm : Nat → Rgba) (pos : Nat → ℚ × ℚ) (L i j : Nat) :
    (edge_trace cm pos L i j).isIntraEdge = true := rfl

@[simp] lemma isIntraEdge_node_trace (pos : Nat → ℚ × ℚ) (n L : Nat) :
    (node_trace pos n L).isIntraEdge = false := rfl

@[simp] lemma isIntraEdge_plane_trace (pos : Nat → ℚ × ℚ) (n L : Nat) :
    (plane_trace pos n L).isIntraEdge = false := rfl

@[simp] lemma isIntraEdge_inter_edge (pos : Nat → ℚ × ℚ) (node L : Nat) :
    (inter_edge pos node L).isIntraEdge = false := rfl

@[simp] lemma isNodeMarker_node_trace (pos : Nat → ℚ × ℚ) (n L : Nat) :
    (node_trace pos n L).isNodeMarker = true := rfl

@[simp] lemma isNodeMarker_edge_trace (cm : Nat → Rgba) (pos : Nat → ℚ × ℚ) (L i j : Nat) :
    (edge_trace cm pos L i j).isNodeMarker = false := rfl

@[simp] lemma isNodeMarker_plane_trace (pos : Nat → ℚ × ℚ) (n L : Nat) :
    (plane_trace pos n L).isNodeMarker = false := rfl

@[simp] lemma isNodeMarker_inter_edge (pos : Nat → ℚ × ℚ) (node L : Nat) :
    (inter_edge pos node L).isNodeMarker = false := rfl

@[simp] lemma isInterEdge_inter_edge (pos : Nat → ℚ × ℚ) (node L : Nat) :
    (inter_edge pos node L).isInterEdge = true := rfl

@[simp] lemma isInterEdge_node_trace (pos : Nat → ℚ × ℚ) (n L : Nat) :
    (node_trace pos n L).isInterEdge = false := rfl

@[simp] lemma isInterEdge_edge_trace (cm : Nat → Rgba) (pos : Nat → ℚ × ℚ) (L i j : Nat) :
    (edge_trace cm pos L i j).isInterEdge = false := rfl

@[simp] lemma isInterEdge_plane_trace (pos : Nat → ℚ × ℚ) (n L : Nat) :
    (plane_trace pos n L).isInterEdge = false := rfl

@[simp] lemma isPlane_plane_trace (pos : Nat → ℚ × ℚ) (n L : Nat) :
    (plane_trace pos n L).isPlane = true := rfl

@[simp] lemma isPlane_node_trace (pos : Nat → ℚ × ℚ) (n L : Nat) :
    (node_trace pos n L).isPlane = false := rfl

@[simp] lemma isPlane_edge_trace (cm : Nat → Rgba) (pos : Nat → ℚ × ℚ) (L i j : Nat) :
    (edge_trace cm pos L i j).isPlane = false := rfl

@[simp] lemma isPlane_inter_edge (pos : Nat → ℚ × ℚ) (node L : Nat) :
    (inter_edge pos node L).isPlane = false := rfl

/-! ## Counting helpers -/

lemma countP_flatMap {α β : Type} (p : β → Bool) (g : α → List β) :
    ∀ l : List α, (l.flatMap g).countP p = (l.map (fun x => (g x).countP p)).sum := by
  intro l
  induction l with
  | nil => simp
  | cons a t ih => simp [List.countP_append, ih]

lemma getD_mem {α : Type} (l : List α) (i : Nat) (d : α) (h : i < l.length) :
    l.getD i d ∈ l := by
  rw [getD_of_lt l i d h]; exact List.get_mem l i h

lemma map_range_getD_eq_map {α β : Type} (d : α) (g : α → β) (l : List α) :
    (List.range l.length).map (fun i => g (l.getD i d)) = l.map g := by
  apply List.ext_getElem
  · simp
  · intro i h1 h2
    have h3 : i < l.length := by simpa using h2
    simp only [List.getElem_map, List.getElem_range]
    congr 1
    rw [List.getD_eq_getElem?_getD, List.getElem?_eq_getElem h3]
    rfl

lemma sum_map_ite_eq_countP {α : Type} (p : α → Bool) :
    ∀ l : List α, (l.map (fun v => if p v then 1 else 0)).sum = l.countP p := by
  intro l
  induction l with
  | nil => simp
  | cons a t ih => by_cases h : p a <;> simp [List.countP_cons, h, ih, Nat.add_comm]

/-- The number of non-zero entries of a matrix, row by row. -/
def nonzero_entries (m : List (List Int)) : Nat :=
  (m.map (fun row => row.countP (fun v => decide (v ≠ 0)))).sum

lemma edge_count_inner {β : Type} (q : β → Bool) (e : Nat → β) (he : ∀ j, q (e j) = true)
    (row : List Int) (n : Nat) (hlen : row.length = n) :
    ((List.range n).flatMap (fun j =>
      if row.getD j 0 ≠ 0 then [e j] else [])).countP q
    = row.countP (fun v => decide (v ≠ 0)) := by
  subst hlen
  rw [countP_flatMap]
  have h1 : List.map (fun j => ((if row.getD j 0 ≠ 0 then [e j] else []).countP q))
      (List.range row.length)
      = List.map (fun j => (fun v => if decide (v ≠ 0) then 1 else 0) (row.getD j 0))
        (List.range row.length) := by
    apply List.map_congr_left
    intro j _
    by_cases h : row[j]?.getD 0 = 0 <;> simp [List.getD_eq_getElem?_getD, h, he j]
  rw [h1, map_range_getD_eq_map (0 : Int) (fun v => if decide (v ≠ 0) then 1 else 0) row]
  exact sum_map_ite_eq_countP (fun v => decide (v ≠ 0)) row

lemma countP_edge_list (cm : Nat → Rgba) (pos : Nat → ℚ × ℚ) (L : Nat)
    (matrix : List (List Int)) (n : Nat)
    (hlen : matrix.length = n) (hrows : ∀ row ∈ matrix, row.length = n) :
    (edge_list cm pos L matrix n).countP Trace.isIntraEdge = nonzero_entries matrix := by
  rw [edge_list, countP_flatMap]
  have inner : ∀ i ∈ List.range n,
      (((List.range n).flatMap (fun j =>
        if (matrix.getD i []).getD j 0 ≠ 0 then [edge_trace cm pos L i j] else [])).countP
          Trace.isIntraEdge)
      = (fun r => r.countP (fun v => decide (v ≠ 0))) (matrix.getD i []) := by
    intro i hi
    have hin : i < matrix.length := by rw [hlen]; exact List.mem_range.mp hi
    have hrlen : (matrix.getD i []).length = n := hrows _ (getD_mem matrix i [] hin)
    exact edge_count_inner Trace.isIntraEdge (fun j => edge_trace cm pos L i j)
      (fun j => rfl) (matrix.getD i []) n hrlen
  rw [List.map_congr_left inner, ← hlen,
    map_range_getD_eq_map ([] : List Int) (fun r => r.countP (fun v => decide (v ≠ 0))) matrix]
  rfl

/-! ## Membership characterizations -/

lemma mem_ite_singleton {α : Type} {c : Prop} [Decidable c] {e t : α} :
    (t ∈ if c then [e] else []) ↔ c ∧ t = e := by
  split <;> simp [*]

lemma mem_edge_list {cm : Nat → Rgba} {pos : Nat → ℚ × ℚ} {L : Nat}
    {matrix : List (List Int)} {n : Nat} {t : Trace} :
    t ∈ edge_list cm pos L matrix n ↔
      ∃ i j, i < n ∧ j < n ∧ (matrix.getD i []).getD j 0 ≠ 0 ∧
        t = edge_trace cm pos L i j := by
  constructor
  · intro h
    simp only [edge_list, List.mem_flatMap, List.mem_range, mem_ite_singleton] at h
    obtain ⟨i, hi, j, hj, hc, ht⟩ := h
    exact ⟨i, j, hi, hj, hc, ht⟩
  · rintro ⟨i, j, hi, hj, hc, rfl⟩
    simp only [edge_list, List.mem_flatMap, List.mem_range, mem_ite_singleton]
    exact ⟨i, hi, j, hj, hc, rfl⟩

lemma mem_inter_edges {pos : Nat → ℚ × ℚ} {n nl : Nat} {t : Trace} :
    t ∈ inter_edges pos n nl ↔
      ∃ node L, node < n ∧ L < nl - 1 ∧ t = inter_edge pos node L := by
  constructor
  · intro h
    simp only [inter_edges, List.mem_flatMap, List.mem_map, List.mem_range] at h
    obtain ⟨node, hnode, L, hL, ht⟩ := h
    exact ⟨node, L, hnode, hL, ht.symm⟩
  · rintro ⟨node, L, hnode, hL, rfl⟩
    simp only [inter_edges, List.mem_flatMap, List.mem_map, List.mem_range]
    exact ⟨node, hnode, L, hL, rfl⟩

lemma mem_layer_traces {cm : Nat → Rgba} {pos : Nat → ℚ × ℚ}
    {a3 : List (List (List Int))} {n L : Nat} {t : Trace} :
    t ∈ layer_traces cm pos a3 n L ↔
      t = node_trace pos n L ∨ t ∈ edge_list cm pos L (a3.getD L []) n ∨
        t = plane_trace pos n L := by
  simp [layer_traces, List.mem_append]

lemma mem_all_traces {cm : Nat → Rgba} {pos : Nat → ℚ × ℚ}
    {a3 : List (List (List Int))} {n : Nat} {t : Trace} :
    t ∈ all_traces cm pos a3 n ↔
      (∃ L, L < a3.length ∧ t = node_trace pos n L) ∨
      (∃ L i j, L < a3.length ∧ i < n ∧ j < n ∧
        ((a3.getD L []).getD i []).getD j 0 ≠ 0 ∧ t = edge_trace cm pos L i j) ∨
      (∃ L, L < a3.length ∧ t = plane_trace pos n L) ∨
      (∃ node L, node < n ∧ L < a3.length - 1 ∧ t = inter_edge pos node L) := by
  rw [all_traces, List.mem_append]
  constructor
  · intro h
    rcases h with h | h
    · simp only [List.mem_flatMap, List.mem_range] at h
      obtain ⟨L, hL, ht⟩ := h
      rcases mem_layer_traces.mp ht with h1 | h2 | h3
      · exact Or.inl ⟨L, hL, h1⟩
      · obtain ⟨i, j, hi, hj, hc, rfl⟩ := mem_edge_list.mp h2
        exact Or.inr (Or.inl ⟨L, i, j, hL, hi, hj, hc, rfl⟩)
      · exact Or.inr (Or.inr (Or.inl ⟨L, hL, h3⟩))
    · obtain ⟨node, L, hnode, hL, rfl⟩ := mem_inter_edges.mp h
      exact Or.inr (Or.inr (Or.inr ⟨node, L, hnode, hL, rfl⟩))
  · intro h
    rcases h with ⟨L, hL, rfl⟩ | ⟨L, i, j, hL, hi, hj, hc, rfl⟩ | ⟨L, hL, rfl⟩ |
      ⟨node, L, hnode, hL, rfl⟩
    · refine Or.inl ?_
      simp only [List.mem_flatMap, List.mem_range]
      exact ⟨L, hL, mem_layer_traces.mpr (Or.inl rfl)⟩
    · refine Or.inl ?_
      simp only [List.mem_flatMap, List.mem_range]
      exact ⟨L, hL, mem_layer_traces.mpr (Or.inr (Or.inl
        (mem_edge_list.mpr ⟨i, j, hi, hj, hc, rfl⟩)))⟩
    · refine Or.inl ?_
      simp only [List.mem_flatMap, List.mem_range]
      exact ⟨L, hL, mem_layer_traces.mpr (Or.inr (Or.inr rfl))⟩
    · exact Or.inr (mem_inter_edges.mpr ⟨node, L, hnode, hL, rfl⟩)

/-! ## Per-layer and global trace counts -/

lemma edge_list_countP_zero {cm : Nat → Rgba} {pos : Nat → ℚ × ℚ} {L : Nat}
    {matrix : List (List Int)} {n : Nat} (p : Trace → Bool)
    (hp : ∀ i j, p (edge_trace cm pos L i j) = false) :
    (edge_list cm pos L matrix n).countP p = 0 := by
  rw [List.countP_eq_zero]
  intro t ht
  obtain ⟨i, j, _, _, _, rfl⟩ := mem_edge_list.mp ht
  simp [hp]

lemma layer_countP_intra (cm : Nat → Rgba) (pos : Nat → ℚ × ℚ)
    (a3 : List (List (List Int))) (n L : Nat)
    (hlen : (a3.getD L []).length = n)
    (hrows : ∀ row ∈ a3.getD L [], row.length = n) :
    (layer_traces cm pos a3 n L).countP Trace.isIntraEdge
      = nonzero_entries (a3.getD L []) := by
  rw [layer_traces, List.countP_append, List.countP_append,
    countP_edge_list cm pos L (a3.getD L []) n hlen hrows]
  simp [List.countP_cons]

lemma layer_countP_marker (cm : Nat → Rgba) (pos : Nat → ℚ × ℚ)
    (a3 : List (List (List Int))) (n L : Nat) :
    (layer_traces cm pos a3 n L).countP Trace.isNodeMarker = 1 := by
  rw [layer_traces, List.countP_append, List.countP_append,
    edge_list_countP_zero Trace.isNodeMarker (fun i j => rfl)]
  simp [List.countP_cons]

lemma layer_countP_plane (cm : Nat → Rgba) (pos : Nat → ℚ × ℚ)
    (a3 : List (List (List Int))) (n L : Nat) :
    (layer_traces cm pos a3 n L).countP Trace.isPlane = 1 := by
  rw [layer_traces, List.countP_append, List.countP_append,
    edge_list_countP_zero Trace.isPlane (fun i j => rfl)]
  simp [List.countP_cons]

lemma layer_countP_inter (cm : Nat → Rgba) (pos : Nat → ℚ × ℚ)
    (a3 : List (List (List Int))) (n L : Nat) :
    (layer_traces cm pos a3 n L).countP Trace.isInterEdge = 0 := by
  rw [layer_traces, List.countP_append, List.countP_append,
    edge_list_countP_zero Trace.isInterEdge (fun i j => rfl)]
  simp [List.countP_cons]

lemma flatMap_layers_countP (cm : Nat → Rgba) (pos : Nat → ℚ × ℚ)
    (a3 : List (List (List Int))) (n : Nat) (p : Trace → Bool) (c : Nat)
    (h : ∀ L ∈ List.range a3.length, (layer_traces cm pos a3 n L).countP p = (fun _ => c) L) :
    ((List.range a3.length).flatMap (fun L => layer_traces cm pos a3 n L)).countP p
      = a3.length * c := by
  rw [countP_flatMap, List.map_congr_left h]
  simp [List.map_const', smul_eq_mul]

lemma length_inter_edges (pos : Nat → ℚ × ℚ) (n nl : Nat) :
    (inter_edges pos n nl).length = n * (nl - 1) := by
  rw [inter_edges, List.length_flatMap]
  have h : (List.length ∘ fun node =>
      List.map (fun L => inter_edge pos node L) (List.range (nl - 1))) = fun _ => nl - 1 := by
    funext node; simp
  rw [h]
  simp [List.map_const', smul_eq_mul]

lemma inter_edges_countP_inter (pos : Nat → ℚ × ℚ) (n nl : Nat) :
    (inter_edges pos n nl).countP Trace.isInterEdge = n * (nl - 1) := by
  rw [← length_inter_edges pos n nl, List.countP_eq_length]
  intro t ht
  obtain ⟨node, L, _, _, rfl⟩ := mem_inter_edges.mp ht
  rfl

lemma inter_edges_countP_zero (pos : Nat → ℚ × ℚ) (n nl : Nat) (p : Trace → Bool)
    (hp : ∀ node L, p (inter_edge pos node L) = false) :
    (inter_edges pos n nl).countP p = 0 := by
  rw [List.countP_eq_zero]
  intro t ht
  obtain ⟨node, L, _, _, rfl⟩ := mem_inter_edges.mp ht
  simp [hp]

/-! ## Rendering the structured tables back to the accumulated HTML string -/

/-- The mesh colour of a trace, when it is a `Mesh3d`. -/
def Trace.meshColor : Trace → Option String
  | .mesh3d _ _ _ _ color _ _ => some color
  | _ => none

/-- Concatenation of a list of strings. -/
def str_concat : List String → String
  | [] => ""
  | s :: rest => s ++ str_concat rest

/-- The `<td>` fragment of a structured cell. -/
def render_cell (c : Cell) : String := td_str c.background c.value

/-- The `<tr>` fragment of a structured row. -/
def render_row (cells : List Cell) : String :=
  "<tr>" ++ str_concat (cells.map render_cell) ++ "</tr>"

/-- The heading-plus-grid fragment of one structured layer table. -/
def render_layer_table (t : LayerTable) : String :=
  h3_str t.headingColor t.layer ++ table_open
    ++ str_concat (t.cells.map render_row) ++ "</table><br>"

lemma foldl_append_eq {α : Type} (f : String → α → String) (g : α → String)
    (hstep : ∀ a x, f a x = a ++ g x) :
    ∀ (l : List α) (acc : String),
      l.foldl f acc = acc ++ str_concat (l.map g) := by
  intro l
  induction l with
  | nil => intro acc; simp [str_concat, String.append_empty]
  | cons x xs ih =>
    intro acc
    rw [List.foldl_cons, hstep, ih, List.map_cons, str_concat, String.append_assoc]

lemma row_str_fold_eq (lc acc : String) (row : List Int) :
    row_str_fold lc acc row = acc ++ render_row (row.map (table_cell lc)) := by
  rw [row_str_fold,
    foldl_append_eq (fun a v => a ++ td_str (if v = 0 then "white" else lc) v)
      (fun v => td_str (if v = 0 then "white" else lc) v) (fun a v => rfl),
    render_row, List.map_map]
  have h : render_cell ∘ table_cell lc =
      fun v => td_str (if v = 0 then "white" else lc) v := rfl
  rw [h]
  simp only [String.append_assoc]

lemma layer_str_fold_eq (cm : Nat → Rgba) (acc : String) (p : Nat × List (List Int)) :
    layer_str_fold cm acc p = acc ++ render_layer_table (layer_table cm p.1 p.2) := by
  rw [layer_str_fold,
    foldl_append_eq (row_str_fold (rgb_css (cm p.1)))
      (fun row => render_row (row.map (table_cell (rgb_css (cm p.1)))))
      (fun a row => row_str_fold_eq _ a row),
    render_layer_table, layer_table]
  simp only [List.map_map]
  have h : render_row ∘ (fun (row : List Int) => row.map (fun v => table_cell (rgb_css (cm p.1)) v)) =
      fun (row : List Int) => render_row (row.map (table_cell (rgb_css (cm p.1)))) := rfl
  rw [h]
  simp only [String.append_assoc]

/-- Lines 99–116: the accumulated `html_table` string is exactly the heading
followed by the rendering of the structured per-layer tables, in order. -/
theorem html_table_str_eq (cm : Nat → Rgba) (a3 : List (List (List Int))) :
    html_table_str cm a3 =
      "<h2>Matrix Values (Layer Colors)</h2>"
        ++ str_concat ((matrix_tables cm a3).map render_layer_table) := by
  rw [html_table_str]
  rw [foldl_append_eq (layer_str_fold cm)
      (fun p => render_layer_table (layer_table cm p.1 p.2))
      (fun acc p => layer_str_fold_eq cm acc p),
    matrix_tables, List.map_map]
  rfl

/-! ## Shared facts about well-formed inputs -/

lemma wf_length_pos {a3 : List (List (List Int))} (hwf : WellFormed a3) :
    0 < a3.length := List.length_pos.mpr hwf.1

lemma wf_matrix {a3 : List (List (List Int))} (hwf : WellFormed a3) {L : Nat}
    (hL : L < a3.length) :
    (a3.getD L []).length = (a3.headD []).length ∧
      ∀ row ∈ a3.getD L [], row.length = (a3.headD []).length :=
  hwf.2.2 _ (getD_mem a3 L [] hL)

lemma matrix_tables_get? (cm : Nat → Rgba) (a3 : List (List (List Int))) (L : Nat)
    (hL : L < a3.length) :
    (matrix_tables cm a3).get? L = some (layer_table cm L (a3.getD L [])) := by
  rw [matrix_tables, List.get?_map, List.get?_enum, get?_of_lt a3 L hL]
  simp only [Option.map_some']
  congr 1
  rw [List.getD_eq_getElem?_getD, List.getElem?_eq_getElem hL]
  rfl

/-! ## The claims -/

/-- C4: for every layer `L` of a well-formed input, the number of intra-layer
edge primitives emitted by `L`'s loop iteration equals the number of non-zero
entries of `L`'s adjacency matrix, each ordered pair counted once. -/
theorem claim_C4_edge_count (cm : Nat → Rgba) (pos : Nat → ℚ × ℚ)
    (a3 : List (List (List Int))) (hwf : WellFormed a3) (L : Nat)
    (hL : L < a3.length) :
    ∃ ts, layer_tracesE cm pos a3 (a3.headD []).length L = .ok ts ∧
      ts.countP Trace.isIntraEdge = nonzero_entries (a3.getD L []) := by
  obtain ⟨hlen, hrows⟩ := wf_matrix hwf hL
  exact ⟨_, layer_tracesE_ok cm pos a3 L hwf hL,
    layer_countP_intra cm pos a3 _ L hlen hrows⟩

/-- Witness for C4 at the source's example `A`, layer 0: three non-zero entries,
three edge primitives. -/
theorem claim_C4_edge_count_witness :
    ∃ ts, layer_tracesE cm0 pos0 A (A.headD []).length 0 = .ok ts ∧
      ts.countP Trace.isIntraEdge = nonzero_entries (A.getD 0 []) :=
  claim_C4_edge_count cm0 pos0 A (by decide) 0 (by decide)

/-- C5: the pipeline emits exactly `n * (numLayers - 1)` inter-layer link
primitives, hence none when `numLayers = 1`. -/
theorem claim_C5_inter_count (cm : Nat → Rgba) (pos : Nat → ℚ × ℚ)
    (th : List Trace → String) (a3 : List (List (List Int))) (hwf : WellFormed a3) :
    ∃ out, plot_3d_multilayer_graph_with_synced_colors cm pos th a3 = .ok out ∧
      out.traces.countP Trace.isInterEdge = (a3.headD []).length * (a3.length - 1) ∧
      (a3.length = 1 → out.traces.countP Trace.isInterEdge = 0) := by
  refine ⟨_, pipeline_ok cm pos th a3 hwf, ?_, ?_⟩ <;>
    rw [all_traces, List.countP_append,
      flatMap_layers_countP cm pos a3 _ Trace.isInterEdge 0
        (fun L _ => layer_countP_inter cm pos a3 _ L),
      inter_edges_countP_inter]
  · ring
  · intro h1
    rw [h1]
    ring

/-- Witness for C5 at the source's example `A`: 3 nodes, 3 layers, 6 links. -/
theorem claim_C5_inter_count_witness :
    ∃ out, plot_3d_multilayer_graph_with_synced_colors cm0 pos0 to_html0 A = .ok out ∧
      out.traces.countP Trace.isInterEdge = (A.headD []).length * (A.length - 1) ∧
      (A.length = 1 → out.traces.countP Trace.isInterEdge = 0) :=
  claim_C5_inter_count cm0 pos0 to_html0 A (by decide)

/-- C6: the pipeline emits exactly `numLayers` node-marker primitives, each
holding exactly `n` positions and `n` labels, and `numLayers` planes; an
all-zero layer still yields its marker and plane, just no edge primitives. -/
theorem claim_C6_node_markers (cm : Nat → Rgba) (pos : Nat → ℚ × ℚ)
    (th : List Trace → String) (a3 : List (List (List Int))) (hwf : WellFormed a3) :
    ∃ out, plot_3d_multilayer_graph_with_synced_colors cm pos th a3 = .ok out ∧
      out.traces.countP Trace.isNodeMarker = a3.length ∧
      (∀ t ∈ out.traces, t.isNodeMarker = true →
        t.xs.length = (a3.headD []).length ∧ t.ys.length = (a3.headD []).length ∧
        t.zs.length = (a3.headD []).length ∧
        ∃ labels, t.textOf = some labels ∧ labels.length = (a3.headD []).length) ∧
      out.traces.countP Trace.isPlane = a3.length ∧
      (∀ L, L < a3.length → (∀ row ∈ a3.getD L [], ∀ v ∈ row, v = 0) →
        ∃ ts, layer_tracesE cm pos a3 (a3.headD []).length L = .ok ts ∧
          ts.countP Trace.isIntraEdge = 0 ∧ ts.countP Trace.isNodeMarker = 1 ∧
          ts.countP Trace.isPlane = 1) := by
  refine ⟨_, pipeline_ok cm pos th a3 hwf, ?_, ?_, ?_, ?_⟩
  · rw [all_traces, List.countP_append,
      flatMap_layers_countP cm pos a3 _ Trace.isNodeMarker 1
        (fun L _ => layer_countP_marker cm pos a3 _ L),
      inter_edges_countP_zero pos _ _ Trace.isNodeMarker (fun node L => rfl)]
    ring
  · intro t ht hmark
    rcases mem_all_traces.mp ht with ⟨L, hL, rfl⟩ | ⟨L, i, j, _, _, _, _, rfl⟩ |
      ⟨L, hL, rfl⟩ | ⟨node, L, _, _, rfl⟩
    · refine ⟨by simp [node_trace, Trace.xs, x_nodes], by simp [node_trace, Trace.ys, y_nodes],
        by simp [node_trace, Trace.zs], ?_⟩
      exact ⟨_, rfl, by simp⟩
    · simp at hmark
    · simp at hmark
    · simp at hmark
  · rw [all_traces, List.countP_append,
      flatMap_layers_countP cm pos a3 _ Trace.isPlane 1
        (fun L _ => layer_countP_plane cm pos a3 _ L),
      inter_edges_countP_zero pos _ _ Trace.isPlane (fun node L => rfl)]
    ring
  · intro L hL hzero
    obtain ⟨hlen, hrows⟩ := wf_matrix hwf hL
    refine ⟨_, layer_tracesE_ok cm pos a3 L hwf hL, ?_,
      layer_countP_marker cm pos a3 _ L, layer_countP_plane cm pos a3 _ L⟩
    rw [layer_countP_intra cm pos a3 _ L hlen hrows, nonzero_entries]
    have hz : ∀ row ∈ a3.getD L [], row.countP (fun v => decide (v ≠ 0)) = 0 := by
      intro row hrow
      rw [List.countP_eq_zero]
      intro v hv
      simp [hzero row hrow v hv]
    rw [List.map_congr_left hz]
    simp [List.map_const']

/-- Witness for C6 at the single-layer all-zero input `[[[0]]]`. -/
theorem claim_C6_node_markers_witness :
    ∃ out, plot_3d_multilayer_graph_with_synced_colors cm0 pos0 to_html0
        [[[0]]] = .ok out ∧
      out.traces.countP Trace.isNodeMarker = ([[[(0 : Int)]]] : List (List (List Int))).length ∧
      (∀ t ∈ out.traces, t.isNodeMarker = true →
        t.xs.length = (([[[(0 : Int)]]] : List (List (List Int))).headD []).length ∧
        t.ys.length = (([[[(0 : Int)]]] : List (List (List Int))).headD []).length ∧
        t.zs.length = (([[[(0 : Int)]]] : List (List (List Int))).headD []).length ∧
        ∃ labels, t.textOf = some labels ∧
          labels.length = (([[[(0 : Int)]]] : List (List (List Int))).headD []).length) ∧
      out.traces.countP Trace.isPlane = ([[[(0 : Int)]]] : List (List (List Int))).length ∧
      (∀ L, L < ([[[(0 : Int)]]] : List (List (List Int))).length →
        (∀ row ∈ ([[[(0 : Int)]]] : List (List (List Int))).getD L [], ∀ v ∈ row, v = 0) →
        ∃ ts, layer_tracesE cm0 pos0 [[[0]]]
            (([[[(0 : Int)]]] : List (List (List Int))).headD []).length L = .ok ts ∧
          ts.countP Trace.isIntraEdge = 0 ∧ ts.countP Trace.isNodeMarker = 1 ∧
          ts.countP Trace.isPlane = 1) :=
  claim_C6_node_markers cm0 pos0 to_html0 [[[0]]] (by decide)

/-- C1: for every layer `L`, every intra-layer edge trace of `L` carries the
raw colormap quadruple `cm L`, the table heading and every non-zero cell carry
`rgb_css (cm L)`, and converting the edge quadruple with the same
`int(channel*255)` rounding yields exactly the table colour string. -/
theorem claim_C1_color_sync (cm : Nat → Rgba) (pos : Nat → ℚ × ℚ)
    (a3 : List (List (List Int))) (hwf : WellFormed a3) (L : Nat)
    (hL : L < a3.length) :
    ∃ ts, layer_tracesE cm pos a3 (a3.headD []).length L = .ok ts ∧
      (∀ t ∈ ts, t.isIntraEdge = true → t.lineOf = some ⟨.rgba (cm L), 4, none⟩) ∧
      ∃ tbl, (matrix_tables cm a3).get? L = some tbl ∧
        tbl.headingColor = rgb_css (cm L) ∧
        (∀ row ∈ tbl.cells, ∀ c ∈ row, c.value ≠ 0 → c.background = rgb_css (cm L)) ∧
        (∀ t ∈ ts, ∀ st, t.lineOf = some st → ∀ fc, st.color = PlotColor.rgba fc →
          rgb_css fc = tbl.headingColor) := by
  refine ⟨_, layer_tracesE_ok cm pos a3 L hwf hL, ?_, ?_⟩
  · intro t ht hintra
    rcases mem_layer_traces.mp ht with rfl | h2 | rfl
    · simp at hintra
    · obtain ⟨i, j, _, _, _, rfl⟩ := mem_edge_list.mp h2
      rfl
    · simp at hintra
  · refine ⟨_, matrix_tables_get? cm a3 L hL, rfl, ?_, ?_⟩
    · intro row hrow c hc hne
      simp only [layer_table] at hrow
      obtain ⟨row0, _, rfl⟩ := List.mem_map.mp hrow
      obtain ⟨v, _, rfl⟩ := List.mem_map.mp hc
      simp only [table_cell] at hne ⊢
      rw [if_neg hne]
    · intro t ht st hst fc hfc
      rcases mem_layer_traces.mp ht with rfl | h2 | rfl
      · simp [node_trace, Trace.lineOf] at hst
      · obtain ⟨i, j, _, _, _, rfl⟩ := mem_edge_list.mp h2
        simp only [edge_trace, Trace.lineOf, Option.some_inj] at hst
        rw [← hst] at hfc
        simp only at hfc
        cases hfc
        rfl
      · simp [plane_trace, Trace.lineOf] at hst

/-- Witness for C1 at the source's example `A`, layer 1. -/
theorem claim_C1_color_sync_witness :
    ∃ ts, layer_tracesE cm0 pos0 A (A.headD []).length 1 = .ok ts ∧
      (∀ t ∈ ts, t.isIntraEdge = true → t.lineOf = some ⟨.rgba (cm0 1), 4, none⟩) ∧
      ∃ tbl, (matrix_tables cm0 A).get? 1 = some tbl ∧
        tbl.headingColor = rgb_css (cm0 1) ∧
        (∀ row ∈ tbl.cells, ∀ c ∈ row, c.value ≠ 0 → c.background = rgb_css (cm0 1)) ∧
        (∀ t ∈ ts, ∀ st, t.lineOf = some st → ∀ fc, st.color = PlotColor.rgba fc →
          rgb_css fc = tbl.headingColor) :=
  claim_C1_color_sync cm0 pos0 A (by decide) 1 (by decide)

/-- C7: node markers share the same x/y lists at every layer; every intra-layer
edge runs between two node positions at a constant per-layer height; every
inter-layer link is vertical at one node's position between two adjacent layer
heights; and the layer height `z = L * 2.0` is strictly increasing in `L`. -/
theorem claim_C7_shared_layout (cm : Nat → Rgba) (pos : Nat → ℚ × ℚ)
    (th : List Trace → String) (a3 : List (List (List Int))) (hwf : WellFormed a3) :
    ∃ out, plot_3d_multilayer_graph_with_synced_colors cm pos th a3 = .ok out ∧
      (∀ t ∈ out.traces, t.isNodeMarker = true →
        t.xs = x_nodes pos (a3.headD []).length ∧
        t.ys = y_nodes pos (a3.headD []).length) ∧
      (∀ t1 ∈ out.traces, ∀ t2 ∈ out.traces, t1.isNodeMarker = true →
        t2.isNodeMarker = true → t1.xs = t2.xs ∧ t1.ys = t2.ys) ∧
      (∀ t ∈ out.traces, t.isIntraEdge = true → ∃ L i j, L < a3.length ∧
        i < (a3.headD []).length ∧ j < (a3.headD []).length ∧
        t.xs = [(pos i).1, (pos j).1] ∧ t.ys = [(pos i).2, (pos j).2] ∧
        t.zs = [layerZ L, layerZ L]) ∧
      (∀ t ∈ out.traces, t.isInterEdge = true →
        ∃ node L, node < (a3.headD []).length ∧ L + 1 < a3.length ∧
        t.xs = [(pos node).1, (pos node).1] ∧ t.ys = [(pos node).2, (pos node).2] ∧
        t.zs = [layerZ L, layerZ (L + 1)]) ∧
      (∀ L1 L2 : Nat, L1 < L2 → layerZ L1 < layerZ L2) := by
  have hnl : 0 < a3.length := wf_length_pos hwf
  refine ⟨_, pipeline_ok cm pos th a3 hwf, ?_, ?_, ?_, ?_, ?_⟩
  · intro t ht hmark
    rcases mem_all_traces.mp ht with ⟨L, hL, rfl⟩ | ⟨L, i, j, _, _, _, _, rfl⟩ |
      ⟨L, hL, rfl⟩ | ⟨node, L, _, _, rfl⟩
    · exact ⟨rfl, rfl⟩
    · simp at hmark
    · simp at hmark
    · simp at hmark
  · intro t1 h1 t2 h2 hm1 hm2
    have k1 : t1.xs = x_nodes pos (a3.headD []).length ∧
        t1.ys = y_nodes pos (a3.headD []).length := by
      rcases mem_all_traces.mp h1 with ⟨L, hL, rfl⟩ | ⟨L, i, j, _, _, _, _, rfl⟩ |
        ⟨L, hL, rfl⟩ | ⟨node, L, _, _, rfl⟩
      · exact ⟨rfl, rfl⟩
      · simp at hm1
      · simp at hm1
      · simp at hm1
    have k2 : t2.xs = x_nodes pos (a3.headD []).length ∧
        t2.ys = y_nodes pos (a3.headD []).length := by
      rcases mem_all_traces.mp h2 with ⟨L, hL, rfl⟩ | ⟨L, i, j, _, _, _, _, rfl⟩ |
        ⟨L, hL, rfl⟩ | ⟨node, L, _, _, rfl⟩
      · exact ⟨rfl, rfl⟩
      · simp at hm2
      · simp at hm2
      · simp at hm2
    exact ⟨k1.1.trans k2.1.symm, k1.2.trans k2.2.symm⟩
  · intro t ht hintra
    rcases mem_all_traces.mp ht with ⟨L, hL, rfl⟩ | ⟨L, i, j, hL, hi, hj, _, rfl⟩ |
      ⟨L, hL, rfl⟩ | ⟨node, L, _, _, rfl⟩
    · simp at hintra
    · exact ⟨L, i, j, hL, hi, hj, rfl, rfl, rfl⟩
    · simp at hintra
    · simp at hintra
  · intro t ht hinter
    rcases mem_all_traces.mp ht with ⟨L, hL, rfl⟩ | ⟨L, i, j, hL, hi, hj, _, rfl⟩ |
      ⟨L, hL, rfl⟩ | ⟨node, L, hnode, hL, rfl⟩
    · simp at hinter
    · simp at hinter
    · simp at hinter
    · exact ⟨node, L, hnode, by omega, rfl, rfl, rfl⟩
  · intro L1 L2 h
    rw [layerZ, layerZ]
    have hq : (L1 : ℚ) < (L2 : ℚ) := by exact_mod_cast h
    linarith

/-- Witness for C7 at the source's example `A`. -/
theorem claim_C7_shared_layout_witness :
    ∃ out, plot_3d_multilayer_graph_with_synced_colors cm0 pos0 to_html0 A = .ok out ∧
      (∀ t ∈ out.traces, t.isNodeMarker = true →
        t.xs = x_nodes pos0 (A.headD []).length ∧
        t.ys = y_nodes pos0 (A.headD []).length) ∧
      (∀ t1 ∈ out.traces, ∀ t2 ∈ out.traces, t1.isNodeMarker = true →
        t2.isNodeMarker = true → t1.xs = t2.xs ∧ t1.ys = t2.ys) ∧
      (∀ t ∈ out.traces, t.isIntraEdge = true → ∃ L i j, L < A.length ∧
        i < (A.headD []).length ∧ j < (A.headD []).length ∧
        t.xs = [(pos0 i).1, (pos0 j).1] ∧ t.ys = [(pos0 i).2, (pos0 j).2] ∧
        t.zs = [layerZ L, layerZ L]) ∧
      (∀ t ∈ out.traces, t.isInterEdge = true →
        ∃ node L, node < (A.headD []).length ∧ L + 1 < A.length ∧
        t.xs = [(pos0 node).1, (pos0 node).1] ∧ t.ys = [(pos0 node).2, (pos0 node).2] ∧
        t.zs = [layerZ L, layerZ (L + 1)]) ∧
      (∀ L1 L2 : Nat, L1 < L2 → layerZ L1 < layerZ L2) :=
  claim_C7_shared_layout cm0 pos0 to_html0 A (by decide)

/-- C9: a non-zero diagonal entry `M[L][i][i]` emits one zero-length edge trace
with both endpoints at node `i`'s position at height `layerZ L`, it is counted
among the intra-layer edge primitives, and its table cell gets the layer
colour. -/
theorem claim_C9_self_loop (cm : Nat → Rgba) (pos : Nat → ℚ × ℚ)
    (a3 : List (List (List Int))) (hwf : WellFormed a3) (L i : Nat)
    (hL : L < a3.length) (hi : i < (a3.headD []).length)
    (hv : ((a3.getD L []).getD i []).getD i 0 ≠ 0) :
    ∃ ts, layer_tracesE cm pos a3 (a3.headD []).length L = .ok ts ∧
      edge_trace cm pos L i i ∈ ts ∧
      (edge_trace cm pos L i i).xs = [(pos i).1, (pos i).1] ∧
      (edge_trace cm pos L i i).ys = [(pos i).2, (pos i).2] ∧
      (edge_trace cm pos L i i).zs = [layerZ L, layerZ L] ∧
      (edge_trace cm pos L i i).isIntraEdge = true ∧
      0 < ts.countP Trace.isIntraEdge ∧
      ∃ tbl, (matrix_tables cm a3).get? L = some tbl ∧
        ∃ row, tbl.cells.get? i = some row ∧ ∃ c, row.get? i = some c ∧
          c.value = ((a3.getD L []).getD i []).getD i 0 ∧
          c.background = rgb_css (cm L) := by
  have hmem : edge_trace cm pos L i i ∈ layer_traces cm pos a3 (a3.headD []).length L :=
    mem_layer_traces.mpr (Or.inr (Or.inl (mem_edge_list.mpr ⟨i, i, hi, hi, hv, rfl⟩)))
  obtain ⟨hlen, hrows⟩ := wf_matrix hwf hL
  have hi' : i < (a3.getD L []).length := by rw [hlen]; exact hi
  have hrow0 := get?_of_lt (a3.getD L []) i hi'
  have hrlen : ((a3.getD L []).get ⟨i, hi'⟩).length = (a3.headD []).length :=
    hrows _ (List.get_mem _ i hi')
  have hii : i < ((a3.getD L []).get ⟨i, hi'⟩).length := by rw [hrlen]; exact hi
  have hval := get?_of_lt ((a3.getD L []).get ⟨i, hi'⟩) i hii
  have hvv : ((a3.getD L []).getD i []).getD i 0 =
      ((a3.getD L []).get ⟨i, hi'⟩).get ⟨i, hii⟩ := by
    rw [getD_of_lt _ i [] hi', getD_of_lt _ i 0 hii]
  refine ⟨_, layer_tracesE_ok cm pos a3 L hwf hL, hmem, rfl, rfl, rfl, rfl, ?_, ?_⟩
  · rw [List.countP_pos]
    exact ⟨_, hmem, rfl⟩
  · refine ⟨_, matrix_tables_get? cm a3 L hL,
      ((a3.getD L []).get ⟨i, hi'⟩).map (fun v => table_cell (rgb_css (cm L)) v), ?_,
      table_cell (rgb_css (cm L)) (((a3.getD L []).get ⟨i, hi'⟩).get ⟨i, hii⟩),
      ?_, ?_, ?_⟩
    · show (layer_table cm L (a3.getD L [])).cells.get? i = some _
      simp only [layer_table]
      rw [List.get?_map, hrow0]
      rfl
    · rw [List.get?_map, hval]
      rfl
    · simp only [table_cell]
      exact hvv.symm
    · simp only [table_cell]
      exact if_neg (hvv ▸ hv)

/-- Witness for C9: layer 1 of the source's example `A` has the self-loop
`M[1][2][2] = 6`. -/
theorem claim_C9_self_loop_witness :
    ∃ ts, layer_tracesE cm0 pos0 A (A.headD []).length 1 = .ok ts ∧
      edge_trace cm0 pos0 1 2 2 ∈ ts ∧
      (edge_trace cm0 pos0 1 2 2).xs = [(pos0 2).1, (pos0 2).1] ∧
      (edge_trace cm0 pos0 1 2 2).ys = [(pos0 2).2, (pos0 2).2] ∧
      (edge_trace cm0 pos0 1 2 2).zs = [layerZ 1, layerZ 1] ∧
      (edge_trace cm0 pos0 1 2 2).isIntraEdge = true ∧
      0 < ts.countP Trace.isIntraEdge ∧
      ∃ tbl, (matrix_tables cm0 A).get? 1 = some tbl ∧
        ∃ row, tbl.cells.get? 2 = some row ∧ ∃ c, row.get? 2 = some c ∧
          c.value = ((A.getD 1 []).getD 2 []).getD 2 0 ∧
          c.background = rgb_css (cm0 1) :=
  claim_C9_self_loop cm0 pos0 A (by decide) 1 2 (by decide) (by decide) (by decide)

/-- C10: node markers and bounding planes use fixed layer-independent colours
(`lightblue`, `lightgray`), inter-layer links use the fixed `gray` dotted
style, and only intra-layer edges, table headings and non-zero table cells
carry the per-layer colour. -/
theorem claim_C10_fixed_colors (cm : Nat → Rgba) (pos : Nat → ℚ × ℚ)
    (th : List Trace → String) (a3 : List (List (List Int))) (hwf : WellFormed a3) :
    ∃ out, plot_3d_multilayer_graph_with_synced_colors cm pos th a3 = .ok out ∧
      (∀ t ∈ out.traces, t.isNodeMarker = true → t.markerOf = some ⟨10, "lightblue"⟩) ∧
      (∀ t ∈ out.traces, t.isPlane = true → t.meshColor = some "lightgray") ∧
      (∀ t ∈ out.traces, t.isInterEdge = true →
        t.lineOf = some ⟨PlotColor.named "gray", 2, some "dot"⟩) ∧
      (∀ t ∈ out.traces, t.isIntraEdge = true → ∃ L, L < a3.length ∧
        t.lineOf = some ⟨PlotColor.rgba (cm L), 4, none⟩) ∧
      (∀ L, L < a3.length → ∃ tbl, (matrix_tables cm a3).get? L = some tbl ∧
        tbl.headingColor = rgb_css (cm L) ∧
        ∀ row ∈ tbl.cells, ∀ c ∈ row,
          c.background = "white" ∨ c.background = rgb_css (cm L)) := by
  refine ⟨_, pipeline_ok cm pos th a3 hwf, ?_, ?_, ?_, ?_, ?_⟩
  · intro t ht hm
    rcases mem_all_traces.mp ht with ⟨L, _, rfl⟩ | ⟨L, i, j, _, _, _, _, rfl⟩ |
      ⟨L, _, rfl⟩ | ⟨node, L, _, _, rfl⟩
    · rfl
    · simp at hm
    · simp at hm
    · simp at hm
  · intro t ht hp
    rcases mem_all_traces.mp ht with ⟨L, _, rfl⟩ | ⟨L, i, j, _, _, _, _, rfl⟩ |
      ⟨L, _, rfl⟩ | ⟨node, L, _, _, rfl⟩
    · simp at hp
    · simp at hp
    · rfl
    · simp at hp
  · intro t ht hie
    rcases mem_all_traces.mp ht with ⟨L, _, rfl⟩ | ⟨L, i, j, _, _, _, _, rfl⟩ |
      ⟨L, _, rfl⟩ | ⟨node, L, _, _, rfl⟩
    · simp at hie
    · simp at hie
    · simp at hie
    · rfl
  · intro t ht hia
    rcases mem_all_traces.mp ht with ⟨L, _, rfl⟩ | ⟨L, i, j, hL, _, _, _, rfl⟩ |
      ⟨L, _, rfl⟩ | ⟨node, L, _, _, rfl⟩
    · simp at hia
    · exact ⟨L, hL, rfl⟩
    · simp at hia
    · simp at hia
  · intro L hL
    refine ⟨_, matrix_tables_get? cm a3 L hL, rfl, ?_⟩
    intro row hrow c hc
    simp only [layer_table] at hrow
    obtain ⟨row0, _, rfl⟩ := List.mem_map.mp hrow
    obtain ⟨v, _, rfl⟩ := List.mem_map.mp hc
    simp only [table_cell]
    by_cases hv : v = 0
    · exact Or.inl (by rw [if_pos hv])
    · exact Or.inr (by rw [if_neg hv])

/-- Witness for C10 at the source's example `A`. -/
theorem claim_C10_fixed_colors_witness :
    ∃ out, plot_3d_multilayer_graph_with_synced_colors cm0 pos0 to_html0 A = .ok out ∧
      (∀ t ∈ out.traces, t.isNodeMarker = true → t.markerOf = some ⟨10, "lightblue"⟩) ∧
      (∀ t ∈ out.traces, t.isPlane = true → t.meshColor = some "lightgray") ∧
      (∀ t ∈ out.traces, t.isInterEdge = true →
        t.lineOf = some ⟨PlotColor.named "gray", 2, some "dot"⟩) ∧
      (∀ t ∈ out.traces, t.isIntraEdge = true → ∃ L, L < A.length ∧
        t.lineOf = some ⟨PlotColor.rgba (cm0 L), 4, none⟩) ∧
      (∀ L, L < A.length → ∃ tbl, (matrix_tables cm0 A).get? L = some tbl ∧
        tbl.headingColor = rgb_css (cm0 L) ∧
        ∀ row ∈ tbl.cells, ∀ c ∈ row,
          c.background = "white" ∨ c.background = rgb_css (cm0 L)) :=
  claim_C10_fixed_colors cm0 pos0 to_html0 A (by decide)

/-- C8: the accumulated HTML table string is the heading followed by one
rendered table per layer in input order; layer `L`'s table carries heading
colour `rgb_css (cm L)` and one cell per matrix entry in matrix index order,
with white background exactly on zero entries and the layer colour on
non-zero entries; a cell renders as a `<td>` with its literal value text. -/
theorem claim_C8_table_render (cm : Nat → Rgba) (a3 : List (List (List Int))) :
    html_table_str cm a3 =
      "<h2>Matrix Values (Layer Colors)</h2>"
        ++ str_concat ((matrix_tables cm a3).map render_layer_table) ∧
    (matrix_tables cm a3).length = a3.length ∧
    (∀ L, L < a3.length → ∃ tbl, (matrix_tables cm a3).get? L = some tbl ∧
      tbl.layer = L ∧ tbl.headingColor = rgb_css (cm L) ∧
      tbl.cells = (a3.getD L []).map
        (fun row => row.map (fun v => table_cell (rgb_css (cm L)) v)) ∧
      render_layer_table tbl =
        h3_str (rgb_css (cm L)) L ++ table_open
          ++ str_concat (tbl.cells.map render_row) ++ "</table><br>" ∧
      (∀ row ∈ tbl.cells, ∀ c ∈ row,
        (c.value = 0 → c.background = "white") ∧
        (c.value ≠ 0 → c.background = rgb_css (cm L)))) ∧
    (∀ c : Cell, render_cell c = td_str c.background c.value) := by
  refine ⟨html_table_str_eq cm a3, by simp [matrix_tables], ?_, fun c => rfl⟩
  intro L hL
  refine ⟨_, matrix_tables_get? cm a3 L hL, rfl, rfl, rfl, rfl, ?_⟩
  intro row hrow c hc
  simp only [layer_table] at hrow
  obtain ⟨row0, _, rfl⟩ := List.mem_map.mp hrow
  obtain ⟨v, _, rfl⟩ := List.mem_map.mp hc
  simp only [table_cell]
  constructor
  · intro hv
    rw [if_pos hv]
  · intro hv
    rw [if_neg hv]

/-- Witness for C8 at the colormap stand-in `cm0` and the source's example `A`,
with the per-layer facts instantiated at layer 2. -/
theorem claim_C8_table_render_witness :
    (html_table_str cm0 A =
      "<h2>Matrix Values (Layer Colors)</h2>"
        ++ str_concat ((matrix_tables cm0 A).map render_layer_table)) ∧
    (∃ tbl, (matrix_tables cm0 A).get? 2 = some tbl ∧
      tbl.layer = 2 ∧ tbl.headingColor = rgb_css (cm0 2) ∧
      tbl.cells = (A.getD 2 []).map
        (fun row => row.map (fun v => table_cell (rgb_css (cm0 2)) v)) ∧
      render_layer_table tbl =
        h3_str (rgb_css (cm0 2)) 2 ++ table_open
          ++ str_concat (tbl.cells.map render_row) ++ "</table><br>" ∧
      (∀ row ∈ tbl.cells, ∀ c ∈ row,
        (c.value = 0 → c.background = "white") ∧
        (c.value ≠ 0 → c.background = rgb_css (cm0 2)))) :=
  ⟨(claim_C8_table_render cm0 A).1,
    (claim_C8_table_render cm0 A).2.2.1 2 (by decide)⟩

/-- C3 fails on the code: the input `[[[0]], [[0,0],[0,0]]]` has mismatched
layer dimensions (a 1×1 first layer and a 2×2 second layer), yet the pipeline
completes successfully instead of failing with an `InvalidInput` error. -/
theorem claim_C3_counterexample :
    (plot_3d_multilayer_graph_with_synced_colors cm0 pos0 to_html0
      [[[0]], [[0, 0], [0, 0]]]).isOk = true := by decide

/-- C3 as amended: the script validates nothing.  An empty layer list fails at
`n = len(array3d[0])` with an index error; a first layer with no rows fails
with the empty-sequence `min()` error during plane construction; a later layer
smaller than the first fails with an index error inside the edge loop; and a
later layer larger than the first is accepted and the pipeline completes.  No
`InvalidInput` error exists anywhere. -/
theorem claim_C3_amended (cm : Nat → Rgba) (pos : Nat → ℚ × ℚ)
    (th : List Trace → String) :
    plot_3d_multilayer_graph_with_synced_colors cm pos th [] =
      .error "IndexError: list index out of range" ∧
    plot_3d_multilayer_graph_with_synced_colors cm pos th [[]] =
      .error "ValueError: min() arg is an empty sequence" ∧
    plot_3d_multilayer_graph_with_synced_colors cm pos th [[[1, 0], [0, 0]], [[1]]] =
      .error "IndexError: list index out of range" ∧
    ∃ out, plot_3d_multilayer_graph_with_synced_colors cm pos th
      [[[0]], [[0, 0], [0, 0]]] = .ok out :=
  ⟨rfl, rfl, rfl, ⟨_, rfl⟩⟩

/-- Witness for C3's amended statement at the concrete delegates. -/
theorem claim_C3_amended_witness :
    plot_3d_multilayer_graph_with_synced_colors cm0 pos0 to_html0 [] =
      .error "IndexError: list index out of range" ∧
    plot_3d_multilayer_graph_with_synced_colors cm0 pos0 to_html0 [[]] =
      .error "ValueError: min() arg is an empty sequence" ∧
    plot_3d_multilayer_graph_with_synced_colors cm0 pos0 to_html0
        [[[1, 0], [0, 0]], [[1]]] =
      .error "IndexError: list index out of range" ∧
    ∃ out, plot_3d_multilayer_graph_with_synced_colors cm0 pos0 to_html0
      [[[0]], [[0, 0], [0, 0]]] = .ok out :=
  claim_C3_amended cm0 pos0 to_html0

set_option maxRecDepth 100000 in
/-- C2: the serializer's output is embedded verbatim in the document, so two
runs whose figure serializations differ (as they do in the real program, where
`fig.to_html` draws a fresh random div id on every call) produce different
documents even on the identical input and layout: the trace lists and table
strings agree byte for byte, the documents do not. -/
theorem claim_C2_round_trip :
    ∃ out1 out2,
      plot_3d_multilayer_graph_with_synced_colors cm0 pos0
        (fun _ => "<div id=run1></div>") A = .ok out1 ∧
      plot_3d_multilayer_graph_with_synced_colors cm0 pos0
        (fun _ => "<div id=run2></div>") A = .ok out2 ∧
      out1.traces = out2.traces ∧ out1.html_table = out2.html_table ∧
      out1.document ≠ out2.document := by
  refine ⟨_, _, pipeline_ok cm0 pos0 (fun _ => "<div id=run1></div>") A (by decide),
    pipeline_ok cm0 pos0 (fun _ => "<div id=run2></div>") A (by decide), rfl, rfl, ?_⟩
  decide
